import Mathlib

/-!
Shallow embedding of `debug_toolbar/panels/sqlalchemy.py` (class
`SQLAlchemyPanel`): engine discovery from resolved dependencies, event-hook
registration, per-statement timing callbacks, and the request-processing
lifecycle with its `try/finally` cleanup.

Modelling choices:
* A SQLAlchemy `Engine` is identified by reference identity (`id`) and carries
  the reportable URL string (`str(engine.url)`).
* The Python `set` field `self.engines` is embedded as a duplicate-free list
  (`insertEngine` adds only when absent), so membership and cardinality facts
  of the Python set are visible.
* The SQLAlchemy event registry is global mutable state; it is embedded as an
  explicit list of (engine identity, listener) pairs threaded through the
  operations. `sqlalchemy.event.listen` with an already-registered key is a
  no-op; `sqlalchemy.event.remove` raises `InvalidRequestError` when the
  listener is not registered (semantics of the external library, which the
  code calls directly).
* Monotonic clock readings (`perf_counter`) are rationals.
* Fallible steps return the mutated state together with `Option PyErr`
  (`some err` meaning the Python code raised `err` at that point, leaving the
  in-place mutations performed so far).
-/

/-- A SQLAlchemy Engine: reference identity plus reportable URL string. -/
structure Engine where
  id : Nat
  url : String
deriving DecidableEq

/-- Python exceptions relevant to the embedded code. -/
inductive PyErr where
  | invalidRequestError
  | attributeError
  | unboundExecutionError
  | otherError (msg : String)
deriving DecidableEq

/-- Identity of a registered event listener: the panel instance the bound
method belongs to, and the event name it listens for. -/
structure Listener where
  pid : Nat
  event : String
deriving DecidableEq

/-- The engine-global event registration state: (engine, listener) pairs,
keyed by the engine object identity (structural equality of `Engine` stands in
for Python reference identity). -/
abbrev Registry := List (Engine × Listener)

def beforeEvt : String := "before_cursor_execute"

def afterEvt : String := "after_cursor_execute"

/-- `sqlalchemy.event.listen`: registering the same (target, event, fn) key
again is a no-op; otherwise the listener is appended. -/
def eventListen (e : Engine) (l : Listener) (reg : Registry) : Registry :=
  if (e, l) ∈ reg then reg else reg ++ [(e, l)]

/-- `sqlalchemy.event.remove`: removes the listener, raising
`InvalidRequestError` when no such listener is registered. -/
def eventRemove (e : Engine) (l : Listener) (reg : Registry) :
    Except PyErr Registry :=
  if (e, l) ∈ reg then .ok (reg.erase (e, l)) else .error .invalidRequestError

/-- `SQLAlchemyPanel.register`: listen for the before and after cursor-execute
events on the engine. -/
def register (pid : Nat) (e : Engine) (reg : Registry) : Registry :=
  eventListen e ⟨pid, afterEvt⟩ (eventListen e ⟨pid, beforeEvt⟩ reg)

/-- `SQLAlchemyPanel.unregister`: remove the before listener, then the after
listener. Each `event.remove` may raise; a raise propagates immediately,
leaving the removals performed so far in place. -/
def unregister (pid : Nat) (e : Engine) (reg : Registry) :
    Registry × Option PyErr :=
  match eventRemove e ⟨pid, beforeEvt⟩ reg with
  | .error err => (reg, some err)
  | .ok reg1 =>
    match eventRemove e ⟨pid, afterEvt⟩ reg1 with
    | .error err => (reg1, some err)
    | .ok reg2 => (reg2, none)

/-- A Timed-Query Record: the dict built by `after_execute`. -/
structure QueryRecord where
  duration : ℚ
  sql : String
  params : List String
deriving DecidableEq

/-- The per-request panel state relevant to the hooks: the panel instance
identity and its request-scoped Query Log. -/
structure PanelState where
  pid : Nat
  log : List (String × QueryRecord)
deriving DecidableEq

/-- Modelled from the spec: `SQLPanel.add_query(url, query)` (base-class code
outside the embedded file) appends one record to the request-scoped Query Log
under the engine-URL key. -/
def add_query (p : PanelState) (url : String) (q : QueryRecord) : PanelState :=
  { p with log := p.log ++ [(url, q)] }

/-- The per-statement execution context: the `_start_time` attribute set by
`before_execute` (absent = `none`), the statement text, the bound parameters
and the engine the statement runs on. -/
structure ExecContext where
  startTime : Option ℚ
  statement : String
  parameters : List String
  engine : Engine
deriving DecidableEq

/-- `SQLAlchemyPanel.before_execute`: record the current monotonic timestamp
on the execution context. -/
def before_execute (now : ℚ) (ctx : ExecContext) : ExecContext :=
  { ctx with startTime := some now }

/-- `SQLAlchemyPanel.after_execute`: read the recorded start time (raising
`AttributeError` when `before_execute` never ran on this context), build the
record with duration in milliseconds, and append it to the Query Log under
`str(context.engine.url)`. -/
def after_execute (now : ℚ) (p : PanelState) (ctx : ExecContext) :
    Except PyErr PanelState :=
  match ctx.startTime with
  | none => .error .attributeError
  | some t0 =>
    .ok (add_query p ctx.engine.url ⟨(now - t0) * 1000, ctx.statement, ctx.parameters⟩)

/-- A value bound to a session: either a `Connection` wrapping an engine, or
an `Engine` itself. -/
inductive SessBind where
  | conn (e : Engine)
  | eng (e : Engine)
deriving DecidableEq

/-- The engine a bind resolves to (`bind.engine` for a Connection, the bind
itself otherwise). -/
def bindEngine : SessBind → Engine
  | .conn e => e
  | .eng e => e

deriving instance DecidableEq for Except

/-- A synchronous `Session`: the values of its private `_Session__binds`
mapping (empty when the attribute is absent or the mapping empty, both falsy
in Python), and the outcome of `value.get_bind()` (which may raise, e.g.
`UnboundExecutionError` on an unbound session). -/
structure SyncSession where
  binds : List SessBind
  get_bind : Except PyErr SessBind
deriving DecidableEq

/-- One resolved dependency value as `add_engines` classifies it: an
`AsyncSession` (whose `sync_session` attribute may be absent or not a
Session, modelled by `none`), a synchronous `Session`, or anything else. -/
inductive DepValue where
  | asyncSession (sync : Option SyncSession)
  | session (s : SyncSession)
  | otherValue
deriving DecidableEq

/-- Outcome of `solve_dependencies`: an `HTTPException` raise, or the list of
resolved dependency values (`solved_result[0].values()`). -/
inductive SolveOutcome where
  | httpException
  | ok (values : List DepValue)
deriving DecidableEq

/-- The matched route: whether it has a `dependant` attribute, and what
re-resolving its dependency graph against the request yields. -/
structure Route where
  hasDependant : Bool
  solveResult : SolveOutcome
deriving DecidableEq

/-- The in-flight request, carrying its matched route. -/
structure Request where
  route : Route
deriving DecidableEq

/-- `set.add` on the duplicate-free list embedding of `self.engines`. -/
def insertEngine (es : List Engine) (e : Engine) : List Engine :=
  if e ∈ es then es else es ++ [e]

/-- The local helper `add_bind_to_engines`: add `bind.engine` for a
Connection, the bind itself for an Engine. -/
def add_bind_to_engines (es : List Engine) (b : SessBind) : List Engine :=
  match b with
  | .conn e => insertEngine es e
  | .eng e => insertEngine es e

/-- The session a dependency value contributes, after unwrapping an
`AsyncSession` via its `sync_session` attribute; `none` for non-sessions. -/
def sessionOf : DepValue → Option SyncSession
  | .asyncSession s? => s?
  | .session s => some s
  | .otherValue => none

/-- The body of the `for value in solved_result[0].values()` loop for a single
value: multi-bind sessions contribute every bound engine, otherwise the
session is asked for its single bind via `get_bind()` (whose raise
propagates). -/
def inspect_value (es : List Engine) (v : DepValue) :
    List Engine × Option PyErr :=
  match sessionOf v with
  | none => (es, none)
  | some s =>
    if s.binds.isEmpty then
      match s.get_bind with
      | .error err => (es, some err)
      | .ok b => (add_bind_to_engines es b, none)
    else
      (s.binds.foldl add_bind_to_engines es, none)

/-- The whole loop over the resolved dependency values: a raise while
inspecting one value aborts the loop and propagates. -/
def inspect_values (es : List Engine) :
    List DepValue → List Engine × Option PyErr
  | [] => (es, none)
  | v :: vs =>
    match inspect_value es v with
    | (es', none) => inspect_values es' vs
    | (es', some err) => (es', some err)

/-- `SQLAlchemyPanel.add_engines`: when the route has a dependency graph,
re-resolve it; an `HTTPException` from resolution is swallowed (`pass`),
otherwise the resolved values are inspected. -/
def add_engines (es : List Engine) (req : Request) :
    List Engine × Option PyErr :=
  if req.route.hasDependant then
    match req.route.solveResult with
    | .httpException => (es, none)
    | .ok values => inspect_values es values
  else (es, none)

/-- The outcome of delegated request processing: a response or a raised
exception. -/
inductive Outcome where
  | ok (respCode : Nat)
  | exn (err : PyErr)
deriving DecidableEq

/-- The `for engine in self.engines: self.register(engine)` loop. -/
def registerLoop (pid : Nat) (es : List Engine) (reg : Registry) : Registry :=
  es.foldl (fun r e => register pid e r) reg

/-- The `finally: for engine in self.engines: self.unregister(engine)` loop:
a raise from one `unregister` aborts the loop and propagates. -/
def cleanupLoop (pid : Nat) :
    List Engine → Registry → Registry × Option PyErr
  | [], reg => (reg, none)
  | e :: es, reg =>
    match unregister pid e reg with
    | (reg', none) => cleanupLoop pid es reg'
    | (reg', some err) => (reg', some err)

/-- `SQLAlchemyPanel.process_request`: run `add_engines` (a raise there
propagates before anything is registered), register every engine in the set,
delegate (the base-class delegate is external; its outcome is the parameter
`d`), then unconditionally run the cleanup loop. Per Python semantics an
exception raised inside `finally` replaces the in-flight outcome. -/
def process_request (pid : Nat) (es : List Engine) (reg : Registry)
    (req : Request) (d : Outcome) : List Engine × Registry × Outcome :=
  match add_engines es req with
  | (es', some err) => (es', reg, .exn err)
  | (es', none) =>
    let reg1 := registerLoop pid es' reg
    match cleanupLoop pid es' reg1 with
    | (reg2, some cerr) => (es', reg2, .exn cerr)
    | (reg2, none) => (es', reg2, d)

/-- Modelled from SQLAlchemy event dispatch: the before phase of one cursor
execution invokes `before_execute` for every panel whose before listener is
registered for this engine, each write landing on the same shared execution
context. -/
def fireBefore (reg : Registry) (e : Engine) (t0 : ℚ) (pids : List Nat)
    (ctx : ExecContext) : ExecContext :=
  pids.foldl
    (fun c pid =>
      if (e, (⟨pid, beforeEvt⟩ : Listener)) ∈ reg then before_execute t0 c
      else c)
    ctx

/-- Modelled from SQLAlchemy event dispatch: the after phase invokes
`after_execute` for every panel whose after listener is registered for this
engine, appending to the own Query Log of that panel. -/
def fireAfter (reg : Registry) (e : Engine) (t1 : ℚ) (ctx : ExecContext)
    (p : PanelState) : PanelState :=
  if (e, (⟨p.pid, afterEvt⟩ : Listener)) ∈ reg then
    match after_execute t1 p ctx with
    | .ok p' => p'
    | .error _ => p
  else p

/-- One statement executed on engine `e` (by whichever request): a fresh
execution context is created, all registered before listeners fire at `t0`,
then all registered after listeners fire at `t1`. -/
def dispatchStatement (reg : Registry) (e : Engine) (sql : String)
    (params : List String) (t0 t1 : ℚ) (panels : List PanelState) :
    List PanelState :=
  let ctx := fireBefore reg e t0 (panels.map PanelState.pid) ⟨none, sql, params, e⟩
  panels.map (fireAfter reg e t1 ctx)

/-! Concrete objects used by counterexamples and witnesses. -/

def engMain : Engine := ⟨0, "postgresql://db/app"⟩

def engAux : Engine := ⟨1, "sqlite://"⟩

def engShardA : Engine := ⟨10, "postgresql://shard-a"⟩

def engShardB : Engine := ⟨11, "postgresql://shard-b"⟩

/-- A session whose `get_bind()` raises (an unbound session). -/
def badSession : SyncSession := ⟨[], .error .unboundExecutionError⟩

/-- A session bound to a single engine via `get_bind()`. -/
def goodSession : SyncSession := ⟨[], .ok (.eng engAux)⟩

/-- A request whose first dependency value blows up under inspection and whose
second one carries a discoverable engine. -/
def reqBadThenGood : Request :=
  ⟨⟨true, .ok [.session badSession, .session goodSession]⟩⟩

/-- The registry of a request whose hooks are installed only on the second
engine of its set: the listeners for the first engine were removed by outside
code. -/
def regOnlyShardB : Registry :=
  [(engShardB, ⟨0, beforeEvt⟩), (engShardB, ⟨0, afterEvt⟩)]

/-- A session bound to multiple (sharded) engines through its private binds
mapping. -/
def shardedSession : SyncSession :=
  ⟨[.conn engShardA, .eng engShardB], .ok (.eng engShardA)⟩

/-- A request resolving the same sharded session through two dependency
values, one of them wrapped in an AsyncSession. -/
def reqSharded : Request :=
  ⟨⟨true, .ok [.session shardedSession, .asyncSession (some shardedSession)]⟩⟩

/-- A request resolving a single session bound to one engine. -/
def reqGood : Request := ⟨⟨true, .ok [.session goodSession]⟩⟩

/-- The panel of the first in-flight request. -/
def panelA : PanelState := ⟨0, []⟩

/-- The panel of the second, concurrently in-flight request. -/
def panelB : PanelState := ⟨1, []⟩

/-- The shared-engine registry during the overlap window: both request panels
have their hooks installed on the same engine. -/
def regShared : Registry := register 1 engMain (register 0 engMain [])

/-! Helper lemmas about the registry operations. -/

theorem beforeEvt_ne_afterEvt : beforeEvt ≠ afterEvt := by decide

theorem mem_eventListen_self (e : Engine) (l : Listener) (reg : Registry) :
    (e, l) ∈ eventListen e l reg := by
  unfold eventListen
  split
  · assumption
  · simp

theorem mem_eventListen_of_mem {x : Engine × Listener} (e : Engine)
    (l : Listener) {reg : Registry} (h : x ∈ reg) : x ∈ eventListen e l reg := by
  unfold eventListen
  split
  · exact h
  · simp [h]

theorem eventListen_nodup (e : Engine) (l : Listener) {reg : Registry}
    (h : reg.Nodup) : (eventListen e l reg).Nodup := by
  unfold eventListen
  split
  · exact h
  · simp only [List.nodup_append, List.nodup_cons, List.not_mem_nil,
      not_false_iff, List.nodup_nil, and_true, true_and]
    refine ⟨h, ?_⟩
    intro y hy hy'
    simp only [List.mem_singleton] at hy'
    subst hy'
    exact ‹(e, l) ∉ reg› hy

theorem mem_register_before (pid : Nat) (e : Engine) (reg : Registry) :
    (e, (⟨pid, beforeEvt⟩ : Listener)) ∈ register pid e reg :=
  mem_eventListen_of_mem _ _ (mem_eventListen_self _ _ _)

theorem mem_register_after (pid : Nat) (e : Engine) (reg : Registry) :
    (e, (⟨pid, afterEvt⟩ : Listener)) ∈ register pid e reg :=
  mem_eventListen_self _ _ _

theorem mem_register_of_mem {x : Engine × Listener} (pid : Nat) (e : Engine)
    {reg : Registry} (h : x ∈ reg) : x ∈ register pid e reg :=
  mem_eventListen_of_mem _ _ (mem_eventListen_of_mem _ _ h)

theorem register_nodup (pid : Nat) (e : Engine) {reg : Registry}
    (h : reg.Nodup) : (register pid e reg).Nodup :=
  eventListen_nodup _ _ (eventListen_nodup _ _ h)

theorem mem_registerLoop_of_mem {x : Engine × Listener} (pid : Nat)
    (es : List Engine) {reg : Registry} (h : x ∈ reg) :
    x ∈ registerLoop pid es reg := by
  induction es generalizing reg with
  | nil => exact h
  | cons e es ih => exact ih (mem_register_of_mem pid e h)

theorem registerLoop_mem (pid : Nat) {es : List Engine} (reg : Registry)
    {e : Engine} (he : e ∈ es) :
    (e, (⟨pid, beforeEvt⟩ : Listener)) ∈ registerLoop pid es reg ∧
    (e, (⟨pid, afterEvt⟩ : Listener)) ∈ registerLoop pid es reg := by
  induction es generalizing reg with
  | nil => cases he
  | cons e' es ih =>
    rcases List.mem_cons.mp he with rfl | he'
    · exact ⟨mem_registerLoop_of_mem pid es (mem_register_before pid e reg),
        mem_registerLoop_of_mem pid es (mem_register_after pid e reg)⟩
    · exact ih _ he'

theorem registerLoop_nodup (pid : Nat) (es : List Engine) {reg : Registry}
    (h : reg.Nodup) : (registerLoop pid es reg).Nodup := by
  induction es generalizing reg with
  | nil => exact h
  | cons e es ih => exact ih (register_nodup pid e h)

theorem eventRemove_mem (e : Engine) (l : Listener) {reg : Registry}
    (h : (e, l) ∈ reg) : eventRemove e l reg = .ok (reg.erase (e, l)) := by
  simp [eventRemove, h]

/-- Successful `unregister` on a duplicate-free registry holding both
listeners: both are removed and nothing else changes. -/
theorem unregister_ok (pid : Nat) (e : Engine) {reg : Registry}
    (hb : (e, (⟨pid, beforeEvt⟩ : Listener)) ∈ reg)
    (ha : (e, (⟨pid, afterEvt⟩ : Listener)) ∈ reg) :
    unregister pid e reg =
      ((reg.erase (e, ⟨pid, beforeEvt⟩)).erase (e, ⟨pid, afterEvt⟩), none) := by
  have hne : (e, (⟨pid, afterEvt⟩ : Listener)) ≠ (e, ⟨pid, beforeEvt⟩) := by
    intro h
    exact beforeEvt_ne_afterEvt (congrArg (fun x => x.2.event) h).symm
  have ha' : (e, (⟨pid, afterEvt⟩ : Listener)) ∈ reg.erase (e, ⟨pid, beforeEvt⟩) :=
    (List.mem_erase_of_ne hne).mpr ha
  simp [unregister, eventRemove_mem _ _ hb, eventRemove_mem _ _ ha']

/-- On a duplicate-free registry holding both listeners of `(pid, e)`, the
cleanup loop over a duplicate-free engine list removes every listed pair of
listeners, raises nothing, and only ever shrinks the registry. -/
theorem cleanupLoop_ok (pid : Nat) :
    ∀ (es : List Engine) (reg : Registry), reg.Nodup → es.Nodup →
    (∀ e ∈ es, (e, (⟨pid, beforeEvt⟩ : Listener)) ∈ reg ∧
      (e, (⟨pid, afterEvt⟩ : Listener)) ∈ reg) →
    ∃ reg', cleanupLoop pid es reg = (reg', none) ∧ reg'.Nodup ∧
      (∀ e ∈ es, (e, (⟨pid, beforeEvt⟩ : Listener)) ∉ reg' ∧
        (e, (⟨pid, afterEvt⟩ : Listener)) ∉ reg') ∧
      ∀ x ∈ reg', x ∈ reg := by
  intro es
  induction es with
  | nil =>
    intro reg hnd _ _
    exact ⟨reg, rfl, hnd, by simp, fun x hx => hx⟩
  | cons e es ih =>
    intro reg hnd hes h
    have hb := (h e (List.mem_cons_self e es)).1
    have ha := (h e (List.mem_cons_self e es)).2
    have hrest := fun e' (he' : e' ∈ es) => h e' (List.mem_cons_of_mem e he')
    set pb : Engine × Listener := (e, ⟨pid, beforeEvt⟩) with hpb
    set pa : Engine × Listener := (e, ⟨pid, afterEvt⟩) with hpa
    have hstep := unregister_ok pid e hb ha
    set reg2 : Registry := (reg.erase pb).erase pa with hreg2
    have hnd1 : (reg.erase pb).Nodup := hnd.erase pb
    have hnd2 : reg2.Nodup := hnd1.erase pa
    have hsub2 : ∀ x ∈ reg2, x ∈ reg := fun x hx =>
      List.mem_of_mem_erase (List.mem_of_mem_erase hx)
    have hes' : es.Nodup := (List.nodup_cons.mp hes).2
    have henotmem : e ∉ es := (List.nodup_cons.mp hes).1
    have hmem2 : ∀ e' ∈ es, (e', (⟨pid, beforeEvt⟩ : Listener)) ∈ reg2 ∧
        (e', (⟨pid, afterEvt⟩ : Listener)) ∈ reg2 := by
      intro e' he'
      have hne : e' ≠ e := fun hcontra => henotmem (hcontra ▸ he')
      have hb' := (hrest e' he').1
      have ha' := (hrest e' he').2
      constructor
      · exact (List.mem_erase_of_ne (by simp [hpa, hne])).mpr
          ((List.mem_erase_of_ne (by simp [hpb, hne])).mpr hb')
      · exact (List.mem_erase_of_ne (by simp [hpa, hne])).mpr
          ((List.mem_erase_of_ne (by simp [hpb, hne])).mpr ha')
    obtain ⟨reg', hloop, hnd', hgone, hsub⟩ := ih reg2 hnd2 hes' hmem2
    refine ⟨reg', ?_, hnd', ?_, fun x hx => hsub2 x (hsub x hx)⟩
    · simp [cleanupLoop, hstep, hloop]
    · intro e' he'
      rcases List.mem_cons.mp he' with rfl | he''
      · have hbgone : pb ∉ reg2 := by
          intro hmem
          have hmem1 : pb ∈ reg.erase pb := List.mem_of_mem_erase hmem
          exact ((List.Nodup.mem_erase_iff hnd).mp hmem1).1 rfl
        have hagone : pa ∉ reg2 := by
          intro hmem
          exact ((List.Nodup.mem_erase_iff hnd1).mp hmem).1 rfl
        exact ⟨fun hmem => hbgone (hsub _ hmem), fun hmem => hagone (hsub _ hmem)⟩
      · exact hgone e' he''

/-! Helper lemmas about engine discovery. -/

theorem mem_insertEngine_self (es : List Engine) (e : Engine) :
    e ∈ insertEngine es e := by
  unfold insertEngine
  split
  · assumption
  · simp

theorem mem_insertEngine_of_mem {x : Engine} {es : List Engine} (e : Engine)
    (h : x ∈ es) : x ∈ insertEngine es e := by
  unfold insertEngine
  split
  · exact h
  · simp [h]

theorem insertEngine_nodup {es : List Engine} (e : Engine) (h : es.Nodup) :
    (insertEngine es e).Nodup := by
  unfold insertEngine
  split
  · exact h
  · simp only [List.nodup_append, List.nodup_cons, List.not_mem_nil,
      not_false_iff, List.nodup_nil, and_true, true_and]
    refine ⟨h, ?_⟩
    intro y hy hy'
    simp only [List.mem_singleton] at hy'
    exact ‹e ∉ es› (hy' ▸ hy)

theorem add_bind_to_engines_eq (es : List Engine) (b : SessBind) :
    add_bind_to_engines es b = insertEngine es (bindEngine b) := by
  cases b <;> rfl

theorem mem_foldl_add_bind_of_mem {x : Engine} (bs : List SessBind) :
    ∀ {es : List Engine}, x ∈ es → x ∈ bs.foldl add_bind_to_engines es := by
  induction bs with
  | nil => intro es h; exact h
  | cons b bs ih =>
    intro es h
    exact ih (by rw [add_bind_to_engines_eq]; exact mem_insertEngine_of_mem _ h)

theorem mem_foldl_add_bind (bs : List SessBind) :
    ∀ (es : List Engine), ∀ b ∈ bs, bindEngine b ∈ bs.foldl add_bind_to_engines es := by
  induction bs with
  | nil => intro es b hb; cases hb
  | cons b' bs ih =>
    intro es b hb
    rcases List.mem_cons.mp hb with rfl | hb'
    · exact mem_foldl_add_bind_of_mem bs
        (by rw [add_bind_to_engines_eq]; exact mem_insertEngine_self _ _)
    · exact ih _ b hb'

theorem foldl_add_bind_nodup (bs : List SessBind) :
    ∀ {es : List Engine}, es.Nodup → (bs.foldl add_bind_to_engines es).Nodup := by
  induction bs with
  | nil => intro es h; exact h
  | cons b bs ih =>
    intro es h
    exact ih (by rw [add_bind_to_engines_eq]; exact insertEngine_nodup _ h)

theorem inspect_value_mono {x : Engine} {es : List Engine} (v : DepValue)
    (h : x ∈ es) : x ∈ (inspect_value es v).1 := by
  unfold inspect_value
  cases hs : sessionOf v with
  | none => exact h
  | some s =>
    simp only
    split
    · cases hg : s.get_bind with
      | error err => simpa [hg] using h
      | ok b =>
        simp only [hg]
        rw [add_bind_to_engines_eq]
        exact mem_insertEngine_of_mem _ h
    · exact mem_foldl_add_bind_of_mem s.binds h

theorem inspect_value_nodup {es : List Engine} (v : DepValue)
    (h : es.Nodup) : (inspect_value es v).1.Nodup := by
  unfold inspect_value
  cases hs : sessionOf v with
  | none => exact h
  | some s =>
    simp only
    split
    · cases hg : s.get_bind with
      | error err => simpa [hg] using h
      | ok b =>
        simp only [hg]
        rw [add_bind_to_engines_eq]
        exact insertEngine_nodup _ h
    · exact foldl_add_bind_nodup s.binds h

/-- When inspecting one value succeeds, every engine bound through the
multi-bind mapping of its session is in the output. -/
theorem inspect_value_covers {es : List Engine} {v : DepValue} {s : SyncSession}
    (hs : sessionOf v = some s) :
    ∀ b ∈ s.binds, bindEngine b ∈ (inspect_value es v).1 := by
  intro b hb
  unfold inspect_value
  rw [hs]
  simp only
  split
  · exact absurd (List.isEmpty_iff.mp ‹s.binds.isEmpty = true› ▸ hb) (by simp)
  · exact mem_foldl_add_bind s.binds es b hb

theorem inspect_values_mono {x : Engine} (vs : List DepValue) :
    ∀ {es : List Engine}, x ∈ es → x ∈ (inspect_values es vs).1 := by
  induction vs with
  | nil => intro es h; exact h
  | cons v vs ih =>
    intro es h
    unfold inspect_values
    cases hiv : inspect_value es v with
    | mk es' oe =>
      have h' : x ∈ es' := by
        have := inspect_value_mono v h
        rw [hiv] at this
        exact this
      cases oe with
      | none => exact ih h'
      | some err => exact h'

theorem inspect_values_nodup (vs : List DepValue) :
    ∀ {es : List Engine}, es.Nodup → (inspect_values es vs).1.Nodup := by
  induction vs with
  | nil => intro es h; exact h
  | cons v vs ih =>
    intro es h
    unfold inspect_values
    cases hiv : inspect_value es v with
    | mk es' oe =>
      have h' : es'.Nodup := by
        have := inspect_value_nodup v h
        rw [hiv] at this
        exact this
      cases oe with
      | none => exact ih h'
      | some err => exact h'

/-- When the whole inspection loop raises nothing, every engine bound through
the multi-bind mapping of any listed session value is in the output. -/
theorem inspect_values_covers (vs : List DepValue) :
    ∀ (es : List Engine), (inspect_values es vs).2 = none →
    ∀ v ∈ vs, ∀ s, sessionOf v = some s → ∀ b ∈ s.binds,
      bindEngine b ∈ (inspect_values es vs).1 := by
  induction vs with
  | nil => intro es _ v hv; cases hv
  | cons v' vs ih =>
    intro es hok v hv s hs b hb
    unfold inspect_values at hok ⊢
    cases hiv : inspect_value es v' with
    | mk es' oe =>
      rw [hiv] at hok
      cases oe with
      | some err => simp at hok
      | none =>
        simp only
        rcases List.mem_cons.mp hv with rfl | hv'
        · have hcov := @inspect_value_covers es _ _ hs b hb
          rw [hiv] at hcov
          exact inspect_values_mono vs hcov
        · exact ih es' hok v hv' s hs b hb

theorem add_engines_mono {x : Engine} {es : List Engine} (req : Request)
    (h : x ∈ es) : x ∈ (add_engines es req).1 := by
  unfold add_engines
  split
  · cases hreq : req.route.solveResult with
    | httpException => simpa using h
    | ok values => exact inspect_values_mono values h
  · exact h

theorem add_engines_nodup {es : List Engine} (req : Request)
    (h : es.Nodup) : (add_engines es req).1.Nodup := by
  unfold add_engines
  split
  · cases hreq : req.route.solveResult with
    | httpException => simpa using h
    | ok values => exact inspect_values_nodup values h
  · exact h

/-- C5: when re-resolving the dependency graph of the route raises an
HTTPException during discovery, the error is swallowed: `add_engines` returns
normally with the engine set it already had (whatever engines, if any, could
be determined), raising nothing, so speculative resolution is never the cause
of the request failing. -/
theorem c5_http_exception_swallowed (es : List Engine) (req : Request)
    (hdep : req.route.hasDependant = true)
    (hsolve : req.route.solveResult = .httpException) :
    add_engines es req = (es, none) := by
  simp [add_engines, hdep, hsolve]

theorem c5_http_exception_swallowed_witness :
    add_engines [engMain] ⟨⟨true, .httpException⟩⟩ = ([engMain], none) :=
  c5_http_exception_swallowed [engMain] ⟨⟨true, .httpException⟩⟩ rfl rfl

/-- C9: reading the recorded start timestamp in the after callback raises
`AttributeError` when the before callback never ran on this execution context
(the attribute is absent); when the before callback did run on the same
context, the read always succeeds. -/
theorem c9_after_requires_before (p : PanelState) (t0 t1 : ℚ)
    (ctx : ExecContext) :
    (ctx.startTime = none → after_execute t1 p ctx = .error .attributeError) ∧
    ∃ p2, after_execute t1 p (before_execute t0 ctx) = .ok p2 := by
  constructor
  · intro h
    simp [after_execute, h]
  · exact ⟨add_query p ctx.engine.url
        ⟨(t1 - t0) * 1000, ctx.statement, ctx.parameters⟩,
      by simp [after_execute, before_execute]⟩

theorem c9_after_requires_before_witness :
    after_execute 5 ⟨0, []⟩ ⟨none, "SELECT 1", [], engMain⟩
      = .error .attributeError ∧
    ∃ p2, after_execute 5 ⟨0, []⟩
      (before_execute 2 ⟨none, "SELECT 1", [], engMain⟩) = .ok p2 :=
  ⟨(c9_after_requires_before ⟨0, []⟩ 2 5 ⟨none, "SELECT 1", [], engMain⟩).1 rfl,
   (c9_after_requires_before ⟨0, []⟩ 2 5 ⟨none, "SELECT 1", [], engMain⟩).2⟩

/-- C7: after the before callback at `t0` and the after callback at
`t1 ≥ t0` (monotonic clock), exactly one Timed-Query Record is appended to
the Query Log under the key equal to the engine URL string; its duration is
`(t1 - t0) * 1000` milliseconds and non-negative, and its statement text and
bound parameters are those of the executed statement. -/
theorem c7_after_execute_record (p : PanelState) (t0 t1 : ℚ)
    (ctx : ExecContext) (hmono : t0 ≤ t1) :
    ∃ q : QueryRecord,
      after_execute t1 p (before_execute t0 ctx)
        = .ok (add_query p ctx.engine.url q) ∧
      q.duration = (t1 - t0) * 1000 ∧ 0 ≤ q.duration ∧
      q.sql = ctx.statement ∧ q.params = ctx.parameters ∧
      (add_query p ctx.engine.url q).log = p.log ++ [(ctx.engine.url, q)] := by
  refine ⟨⟨(t1 - t0) * 1000, ctx.statement, ctx.parameters⟩, ?_, rfl, ?_, rfl,
    rfl, rfl⟩
  · simp [after_execute, before_execute]
  · exact mul_nonneg (by linarith) (by norm_num)

theorem c7_after_execute_record_witness :
    ∃ q : QueryRecord,
      after_execute 3 ⟨0, []⟩ (before_execute 1 ⟨none, "SELECT 2", ["x"], engMain⟩)
        = .ok (add_query ⟨0, []⟩ engMain.url q) ∧
      q.duration = (3 - 1) * 1000 ∧ 0 ≤ q.duration ∧
      q.sql = "SELECT 2" ∧ q.params = ["x"] ∧
      (add_query ⟨0, []⟩ engMain.url q).log = [] ++ [(engMain.url, q)] :=
  c7_after_execute_record ⟨0, []⟩ 1 3 ⟨none, "SELECT 2", ["x"], engMain⟩
    (by norm_num)

/-- C2 counterexample: calling `unregister` on an engine that was never
registered raises: the first `event.remove` finds no listener and raises
`InvalidRequestError`, contradicting the claimed idempotence. -/
theorem c2_unregister_not_idempotent_cex :
    unregister 0 engMain [] = ([], some .invalidRequestError) := by decide

/-- C2 amended: calling `unregister` on an engine whose before listener is not
registered raises `InvalidRequestError` and leaves the registry unchanged
(and, since `unregister` never touches the Query Log, the log is unaltered);
`unregister` is not idempotent. -/
theorem c2_unregister_absent_raises (pid : Nat) (e : Engine) (reg : Registry)
    (habs : (e, (⟨pid, beforeEvt⟩ : Listener)) ∉ reg) :
    unregister pid e reg = (reg, some .invalidRequestError) := by
  simp [unregister, eventRemove, habs]

theorem c2_unregister_absent_raises_witness :
    unregister 5 engAux [] = ([], some .invalidRequestError) :=
  c2_unregister_absent_raises 5 engAux [] (by decide)

/-- C4 counterexample: a raise while inspecting the first dependency value
(an unbound session whose `get_bind()` raises `UnboundExecutionError`) aborts
discovery: the error propagates out of `add_engines` and the engine of the
second dependency value is never added. -/
theorem c4_discovery_aborts_cex :
    add_engines [] reqBadThenGood = ([], some .unboundExecutionError) ∧
    engAux ∉ (add_engines [] reqBadThenGood).1 := by
  refine ⟨rfl, ?_⟩
  decide

/-- C4 amended: an unexpected exception raised while inspecting one
dependency value aborts inspection of the remaining dependency values and
propagates out of discovery; only the HTTPException raised by dependency
resolution itself is swallowed. -/
theorem c4_inspect_error_propagates (es es2 : List Engine) (err : PyErr)
    (v : DepValue) (vs : List DepValue)
    (h : inspect_value es v = (es2, some err)) :
    inspect_values es (v :: vs) = (es2, some err) := by
  simp [inspect_values, h]

theorem c4_inspect_error_propagates_witness :
    inspect_values [] [DepValue.session badSession, DepValue.session goodSession]
      = ([], some .unboundExecutionError) :=
  c4_inspect_error_propagates [] [] .unboundExecutionError
    (DepValue.session badSession) [DepValue.session goodSession] rfl

/-- C3 counterexample: when uninstalling the first engine raises, the cleanup
loop stops: the second engine is never given an uninstall attempt and its
listeners remain installed. -/
theorem c3_cleanup_stops_cex :
    cleanupLoop 0 [engShardA, engShardB] regOnlyShardB
      = (regOnlyShardB, some .invalidRequestError) ∧
    (engShardB, (⟨0, afterEvt⟩ : Listener)) ∈
      (cleanupLoop 0 [engShardA, engShardB] regOnlyShardB).1 := by
  refine ⟨rfl, ?_⟩
  decide

/-- C3 amended: if uninstalling one engine raises, the cleanup loop aborts
immediately with that error: the remaining engines in the set are not given
an uninstall attempt and the registry stays as the failing `unregister` left
it. -/
theorem c3_cleanup_aborts_on_error (pid : Nat) (e : Engine) (es : List Engine)
    (reg reg2 : Registry) (err : PyErr)
    (h : unregister pid e reg = (reg2, some err)) :
    cleanupLoop pid (e :: es) reg = (reg2, some err) := by
  simp [cleanupLoop, h]

theorem c3_cleanup_aborts_on_error_witness :
    cleanupLoop 3 [engShardA] [] = ([], some .invalidRequestError) :=
  c3_cleanup_aborts_on_error 3 engShardA [] [] [] .invalidRequestError rfl

/-- C6: on a duplicate-free engine set, discovery keeps the set duplicate
free — each distinct engine appears at most once no matter how many session
objects or dependency values reference it — and, when discovery raises
nothing, every engine bound through the multi-bind (sharded) mapping of any
resolved session value is in the set: added exactly once, with no
duplicates. -/
theorem c6_engine_set_distinct (es : List Engine) (req : Request)
    (values : List DepValue) (hnd : es.Nodup)
    (hdep : req.route.hasDependant = true)
    (hsolve : req.route.solveResult = .ok values)
    (hok : (add_engines es req).2 = none) :
    (add_engines es req).1.Nodup ∧
    ∀ v ∈ values, ∀ s, sessionOf v = some s → ∀ b ∈ s.binds,
      bindEngine b ∈ (add_engines es req).1 := by
  have heq : add_engines es req = inspect_values es values := by
    simp [add_engines, hdep, hsolve]
  rw [heq] at hok ⊢
  exact ⟨inspect_values_nodup values hnd, inspect_values_covers values es hok⟩

theorem c6_engine_set_distinct_witness :
    (add_engines [] reqSharded).1.Nodup ∧
    ∀ v ∈ [DepValue.session shardedSession,
           DepValue.asyncSession (some shardedSession)],
      ∀ s, sessionOf v = some s → ∀ b ∈ s.binds,
        bindEngine b ∈ (add_engines [] reqSharded).1 :=
  c6_engine_set_distinct [] reqSharded
    [DepValue.session shardedSession, DepValue.asyncSession (some shardedSession)]
    List.nodup_nil rfl rfl rfl

/-- The engine list produced by `process_request` is exactly the one produced
by the discovery step. -/
theorem process_request_fst (pid : Nat) (es : List Engine) (reg : Registry)
    (req : Request) (d : Outcome) :
    (process_request pid es reg req d).1 = (add_engines es req).1 := by
  unfold process_request
  cases h : add_engines es req with
  | mk es1 oe =>
    cases oe with
    | some err => rfl
    | none =>
      simp only
      cases hc : cleanupLoop pid es1 (registerLoop pid es1 reg) with
      | mk r2 oc => cases oc <;> simp [hc]

/-- C1: when discovery raises nothing, `process_request` runs cleanup
unconditionally: whatever the outcome of the delegated processing — normal
response, error response, or raised exception — every engine registered for
the request is unregistered again (no listener of this panel instance
survives in the final registry), and the delegated outcome, in particular an
original exception, propagates unchanged to the caller. -/
theorem c1_cleanup_unconditional (pid : Nat) (es : List Engine)
    (reg : Registry) (req : Request) (d : Outcome)
    (hnd : es.Nodup) (hreg : reg.Nodup)
    (hok : (add_engines es req).2 = none) :
    (process_request pid es reg req d).2.2 = d ∧
    ∀ e ∈ (process_request pid es reg req d).1,
      (e, (⟨pid, beforeEvt⟩ : Listener)) ∉ (process_request pid es reg req d).2.1 ∧
      (e, (⟨pid, afterEvt⟩ : Listener)) ∉ (process_request pid es reg req d).2.1 := by
  cases hsplit : add_engines es req with
  | mk es1 oe =>
    have hoe : oe = none := by
      rw [hsplit] at hok
      exact hok
    subst hoe
    have hnd1 : es1.Nodup := by
      have h := add_engines_nodup req hnd
      rw [hsplit] at h
      exact h
    have hreg1 : (registerLoop pid es1 reg).Nodup := registerLoop_nodup pid es1 hreg
    have hpairs : ∀ e ∈ es1,
        (e, (⟨pid, beforeEvt⟩ : Listener)) ∈ registerLoop pid es1 reg ∧
        (e, (⟨pid, afterEvt⟩ : Listener)) ∈ registerLoop pid es1 reg :=
      fun e he => registerLoop_mem pid reg he
    obtain ⟨reg2, hloop, hnd2, hgone, hsub⟩ :=
      cleanupLoop_ok pid es1 (registerLoop pid es1 reg) hreg1 hnd1 hpairs
    have hpr : process_request pid es reg req d = (es1, reg2, d) := by
      simp [process_request, hsplit, hloop]
    rw [hpr]
    exact ⟨rfl, fun e he => hgone e he⟩

theorem c1_cleanup_unconditional_witness :
    (process_request 0 [] [] reqGood (.exn (.otherError "boom"))).2.2
      = .exn (.otherError "boom") ∧
    ∀ e ∈ (process_request 0 [] [] reqGood (.exn (.otherError "boom"))).1,
      (e, (⟨0, beforeEvt⟩ : Listener))
          ∉ (process_request 0 [] [] reqGood (.exn (.otherError "boom"))).2.1 ∧
      (e, (⟨0, afterEvt⟩ : Listener))
          ∉ (process_request 0 [] [] reqGood (.exn (.otherError "boom"))).2.1 :=
  c1_cleanup_unconditional 0 [] [] reqGood (.exn (.otherError "boom"))
    List.nodup_nil List.nodup_nil rfl

/-- C10: the engine set grows monotonically: `add_engines` and
`process_request` only ever add engines and never remove or clear any, so
every engine previously discovered by this panel instance persists, and the
register loop of a subsequent `process_request` call installs listeners for
every previously discovered engine again. -/
theorem c10_engines_monotone (pid : Nat) (es : List Engine)
    (reg reg2 : Registry) (req : Request) (d : Outcome) :
    es ⊆ (add_engines es req).1 ∧
    es ⊆ (process_request pid es reg req d).1 ∧
    ∀ e ∈ es, (e, (⟨pid, beforeEvt⟩ : Listener)) ∈
      registerLoop pid (process_request pid es reg req d).1 reg2 := by
  refine ⟨fun x hx => add_engines_mono req hx, ?_, ?_⟩
  · rw [process_request_fst]
    exact fun x hx => add_engines_mono req hx
  · intro e he
    have hmem : e ∈ (process_request pid es reg req d).1 := by
      rw [process_request_fst]
      exact add_engines_mono req he
    exact (registerLoop_mem pid reg2 hmem).1

theorem c10_engines_monotone_witness :
    engMain ∈ (process_request 0 [engMain] [] ⟨⟨false, .httpException⟩⟩ (.ok 200)).1 :=
  (c10_engines_monotone 0 [engMain] [] [] ⟨⟨false, .httpException⟩⟩ (.ok 200)).2.1
    (List.mem_singleton_self engMain)

/-- C8 counterexample: both in-flight requests have their hooks installed on
the same shared engine; one statement is executed by the first request during
the overlap window. The dispatch invokes the listeners of both panels, so the
Query Log of the second panel also receives the record: it observes a
statement its own request never executed, refuting the claimed isolation. -/
theorem c8_cross_request_leakage_cex :
    (dispatchStatement regShared engMain "SELECT A" [] 2 3
        [panelA, panelB]).map PanelState.log
      = [[(engMain.url, ⟨(3 - 2) * 1000, "SELECT A", []⟩)],
         [(engMain.url, ⟨(3 - 2) * 1000, "SELECT A", []⟩)]] := by
  rfl

/-- C8 amended: two concurrent requests sharing the same engine do NOT each
observe only their own statements: every panel whose after listener is
installed on the shared engine logs every statement executed on that engine
during the overlap, whichever request executed it, so each record appears in
the Query Logs of both requests (cross-request leakage). -/
theorem c8_shared_engine_both_logs (reg : Registry) (e : Engine)
    (sql : String) (params : List String) (t0 t1 : ℚ) (pA pB : PanelState)
    (hbA : (e, (⟨pA.pid, beforeEvt⟩ : Listener)) ∈ reg)
    (haA : (e, (⟨pA.pid, afterEvt⟩ : Listener)) ∈ reg)
    (haB : (e, (⟨pB.pid, afterEvt⟩ : Listener)) ∈ reg) :
    dispatchStatement reg e sql params t0 t1 [pA, pB]
      = [⟨pA.pid, pA.log ++ [(e.url, ⟨(t1 - t0) * 1000, sql, params⟩)]⟩,
         ⟨pB.pid, pB.log ++ [(e.url, ⟨(t1 - t0) * 1000, sql, params⟩)]⟩] := by
  have hctx : fireBefore reg e t0 [pA.pid, pB.pid] ⟨none, sql, params, e⟩
      = ⟨some t0, sql, params, e⟩ := by
    simp only [fireBefore, List.foldl_cons, List.foldl_nil, hbA, if_true]
    split <;> simp [before_execute]
  unfold dispatchStatement
  simp only [List.map_cons, List.map_nil]
  rw [hctx]
  simp [fireAfter, haA, haB, after_execute, add_query]

theorem c8_shared_engine_both_logs_witness :
    dispatchStatement regShared engMain "SELECT B" ["y"] 4 6 [panelA, panelB]
      = [⟨panelA.pid, panelA.log
            ++ [(engMain.url, ⟨(6 - 4) * 1000, "SELECT B", ["y"]⟩)]⟩,
         ⟨panelB.pid, panelB.log
            ++ [(engMain.url, ⟨(6 - 4) * 1000, "SELECT B", ["y"]⟩)]⟩] :=
  c8_shared_engine_both_logs regShared engMain "SELECT B" ["y"] 4 6
    panelA panelB (by decide) (by decide) (by decide)
